import Mathlib

/-
Shallow embedding of the fredAPI repository
(fred_cpi_unemployment_linear_regression.py, fred_phillips_curve.py,
fred_key.py) and proofs about the claims of its specification.

Modelling conventions:
* Python `str` values are Lean `String`s; character-level processing is done
  on `String.data` (a `List Char`) with structural recursion so that concrete
  inputs evaluate in the kernel.
* Dates: the scripts parse the payload's date strings with `pd.to_datetime`
  and only ever use them as join/order keys, so a date is modelled as a `Nat`
  ordinal (chronological order = `Nat` order).
* Python `float` column values are modelled as `Option ℚ`: `none` is IEEE NaN
  (the value `float` parses from a NaN literal, later removed by `dropna`),
  `some q` an ordinary finite value.  The scripts do no float arithmetic on
  the series values other than the regression, modelled exactly over `ℚ`.
* Exceptions are modelled with `Except PyExc`.
-/

namespace Fred

/-- Python exception values that the scripts can raise, as far as the claims
need to distinguish them.  `httpError` is `requests.HTTPError` as raised by
`resp.raise_for_status()` together with the context the wrapper prints
(endpoint URL, status code, body excerpt truncated to 200 characters);
the spec calls this classification `RemoteRequestError`. -/
inductive PyExc where
  | valueError (msg : String)
  | httpError (url : String) (status : Nat) (excerpt : String)
  | runtimeError (msg : String)
  | pyodbcError (msg : String)
  | keyError (msg : String)
deriving DecidableEq

/-- Result of parsing one Python float literal: NaN or a finite value. -/
inductive PyFloat where
  | nan
  | num (q : ℚ)
deriving DecidableEq

/-- Value of one decimal digit character, `none` on a non-digit. -/
def digitVal (c : Char) : Option Nat :=
  if c.isDigit then some (c.toNat - '0'.toNat) else none

/-- Accumulating value of a digit run; fails on any non-digit. -/
def digitsValAux (acc : Nat) : List Char → Option Nat
  | [] => some acc
  | c :: cs =>
    match digitVal c with
    | some d => digitsValAux (10 * acc + d) cs
    | none => none

/-- Value of a non-empty all-digit run, as Python `int` parsing of the
integer or fraction part of a float literal. -/
def digitsVal : List Char → Option Nat
  | [] => none
  | cs => digitsValAux 0 cs

/-- Split a character list at the first dot, keeping what is before and,
when a dot exists, what is after it. -/
def breakDot : List Char → List Char × Option (List Char)
  | [] => ([], none)
  | c :: cs =>
    if c = '.' then ([], some cs)
    else
      let r := breakDot cs
      (c :: r.1, r.2)

/-- Unsigned decimal core of Python `float(s)`: digits, optionally with one
dot and a fraction, at least one digit overall (`"5."`, `".5"`, `"12.25"`
parse; `"."` and `""` do not). -/
def parseFloatCore (cs : List Char) : Option ℚ :=
  match breakDot cs with
  | (ip, none) => (digitsVal ip).map fun n => (n : ℚ)
  | (ip, some fp) =>
    if fp.contains '.' then none
    else if ip.isEmpty && fp.isEmpty then none
    else
      let ipv : Option ℚ := if ip.isEmpty then some 0 else (digitsVal ip).map fun n => (n : ℚ)
      let fpv : Option ℚ :=
        if fp.isEmpty then some 0
        else (digitsVal fp).map fun n => (n : ℚ) / (10 : ℚ) ^ fp.length
      match ipv, fpv with
      | some a, some b => some (a + b)
      | _, _ => none

/-- Python `float` on a character list: NaN spellings, an optional sign,
then the decimal core. -/
def pyFloatOfChars (cs : List Char) : Option PyFloat :=
  if cs.map Char.toLower = ['n', 'a', 'n'] then some PyFloat.nan
  else
    match cs with
    | '-' :: rest => (parseFloatCore rest).map fun q => PyFloat.num (-q)
    | '+' :: rest => (parseFloatCore rest).map PyFloat.num
    | _ => (parseFloatCore cs).map PyFloat.num

/-- Python `float(s)` restricted to the decimal shapes the FRED payload can
carry: NaN spellings, an optional sign, digits with an optional dot.  FRED
serialises observation values as plain decimals, and its missing-value
sentinel is the bare dot, which does not parse. -/
def pyFloatOfString (s : String) : Option PyFloat :=
  pyFloatOfChars s.data

/-- One series table: the date-indexed `value` column of `cpi_df` /
`unemp_df` / `obs_data`, in row order.  `none` is a NaN entry. -/
abbrev SeriesTable := List (Nat × Option ℚ)

/-- Conversion of one raw value string by the `astype(float)` column cast:
a parse failure raises `ValueError`, a NaN literal yields NaN. -/
def floatOfValue (s : String) : Except PyExc (Option ℚ) :=
  match pyFloatOfString s with
  | some PyFloat.nan => Except.ok none
  | some (PyFloat.num q) => Except.ok (some q)
  | none => Except.error (PyExc.valueError ("could not convert string to float: " ++ s))

/-- Series Loader: `pd.DataFrame(resp.json()["observations"])`, then
`set_index("date")` and `df["value"].astype(float)`
(fred_cpi_unemployment_linear_regression.py lines 77-80 and 103-106).
Row order of the payload is preserved; `set_index` does not sort.  The cast
raises at the first unparseable value. -/
def loadSeries : List (Nat × String) → Except PyExc SeriesTable
  | [] => Except.ok []
  | r :: rs =>
    match floatOfValue r.2 with
    | Except.error e => Except.error e
    | Except.ok v =>
      match loadSeries rs with
      | Except.error e => Except.error e
      | Except.ok t => Except.ok ((r.1, v) :: t)

/-- Python string slicing `s[:n]`, used for `resp.text[:200]`. -/
def strTruncate (s : String) (n : Nat) : String :=
  ⟨s.data.take n⟩

/-- An HTTP response as far as the scripts inspect it: `resp.status_code`
and `resp.text`. -/
structure HTTPResponse where
  status : Nat
  text : String
deriving DecidableEq

/-- Base endpoint of both scripts. -/
def BASE_URL : String := "https://api.stlouisfed.org/fred/"

/-- The in-place update `fred_get` performs on its `params` dict:
`if "api_key" not in params: params["api_key"] = fred_key`
(fred_cpi_unemployment_linear_regression.py lines 45-46,
fred_phillips_curve.py lines 49-50).  A Python dict is modelled as an
association list in insertion order; adding a fresh key appends it. -/
def fredGetParams (fredKey : String) (params : List (String × String)) :
    List (String × String) :=
  if (params.lookup "api_key").isSome then params
  else params ++ [("api_key", fredKey)]

/-- `resp.raise_for_status()` of the requests library: it raises
`HTTPError` exactly when `400 <= status_code < 600`; the wrapper's except
block prints the endpoint URL, the status and `resp.text[:200]` and
re-raises, which the spec classifies as `RemoteRequestError` carrying those
three fields. -/
def raiseForStatus (url : String) (resp : HTTPResponse) : Except PyExc HTTPResponse :=
  if 400 ≤ resp.status ∧ resp.status < 600 then
    Except.error (PyExc.httpError url resp.status (strTruncate resp.text 200))
  else Except.ok resp

/-- HTTP Fetcher `fred_get(endpoint, params)`
(fred_cpi_unemployment_linear_regression.py lines 42-57).  `net` stands for
the single `requests.get(url, params=params)` call; the first component is
the returned response or the raised error, the second the state of the
caller's `params` dict after the call (mutated in place). -/
def fredGet (fredKey : String) (endpoint : String) (params : List (String × String))
    (net : String → List (String × String) → HTTPResponse) :
    Except PyExc HTTPResponse × List (String × String) :=
  let url := BASE_URL ++ endpoint
  let params' := fredGetParams fredKey params
  let resp := net url params'
  (raiseForStatus url resp, params')

/-- Inner join of `pd.merge(cpi_df, unemp_df, left_index=True,
right_index=True, suffixes=...)` (line 113): rows of the left table whose
date also indexes the right table, paired with the right value. -/
def innerJoin (a b : SeriesTable) : List (Nat × (Option ℚ × Option ℚ)) :=
  a.filterMap fun p => (b.lookup p.1).map fun w => (p.1, (p.2, w))

/-- The `.dropna()` on the merged frame (line 114): keep exactly the rows
where neither value is NaN. -/
def dropna (l : List (Nat × (Option ℚ × Option ℚ))) : List (Nat × (ℚ × ℚ)) :=
  l.filterMap fun q => q.2.1.bind fun x => q.2.2.map fun y => (q.1, (x, y))

/-- Aligner/Merger: `merged_df = pd.merge(...).dropna()` (lines 113-114). -/
def mergeTables (a b : SeriesTable) : List (Nat × (ℚ × ℚ)) :=
  dropna (innerJoin a b)

/-- Number of points of a regression dataset, as a rational. -/
def count (data : List (ℚ × ℚ)) : ℚ := (data.length : ℚ)

/-- Sum of the predictor column. -/
def sumX (data : List (ℚ × ℚ)) : ℚ := (data.map fun p => p.1).sum

/-- Sum of the response column. -/
def sumY (data : List (ℚ × ℚ)) : ℚ := (data.map fun p => p.2).sum

/-- Sum of squared predictors. -/
def sumXX (data : List (ℚ × ℚ)) : ℚ := (data.map fun p => p.1 * p.1).sum

/-- Sum of predictor-response products. -/
def sumXY (data : List (ℚ × ℚ)) : ℚ := (data.map fun p => p.1 * p.2).sum

/-- Sum of squared responses. -/
def sumYY (data : List (ℚ × ℚ)) : ℚ := (data.map fun p => p.2 * p.2).sum

/-- Mean of the predictor column. -/
def meanX (data : List (ℚ × ℚ)) : ℚ := sumX data / count data

/-- Mean of the response column. -/
def meanY (data : List (ℚ × ℚ)) : ℚ := sumY data / count data

/-- Population covariance of predictor and response. -/
def covXY (data : List (ℚ × ℚ)) : ℚ := sumXY data / count data - meanX data * meanY data

/-- Population variance of the predictor. -/
def varX (data : List (ℚ × ℚ)) : ℚ := sumXX data / count data - meanX data * meanX data

/-- The fitted model: `reg.intercept_` and `reg.coef_[0]` (lines 134-136). -/
structure FitResult where
  intercept : ℚ
  slope : ℚ
deriving DecidableEq

/-- Regressor: `LinearRegression().fit(X, y)` with the single predictor
column `X = merged_df[["CPI YoY %"]]` and `y = merged_df["Unemployment %"]`
(lines 128-132).  sklearn is specified by its documented objective --
ordinary least squares with intercept -- and computes the minimum-norm
least-squares solution; on data with a non-constant predictor that is the
closed form `slope = Cov(x,y)/Var(x)`, `intercept = mean y - slope * mean x`
(proved below to minimise the residual sum of squares), and on a constant
predictor it is `slope = 0`, `intercept = mean y`, which `ℚ`'s
zero-denominator convention `0 / 0 = 0` reproduces exactly. -/
def fit (data : List (ℚ × ℚ)) : FitResult :=
  let b := covXY data / varX data
  { intercept := meanY data - b * meanX data, slope := b }

/-- Residual sum of squares, the objective `LinearRegression` minimises. -/
def RSS (data : List (ℚ × ℚ)) (a b : ℚ) : ℚ :=
  (data.map fun p => (p.2 - (a + b * p.1)) ^ 2).sum

/-- Outcome of the database interaction in fred_key.py: the `pyodbc.connect`
may fail, the `cursor.execute` may fail, or `fetchone()` returns no row, a
row with a NULL first column, or a row with a string first column. -/
inductive DBResult where
  | connectFail (msg : String)
  | queryFail (msg : String)
  | fetched (row : Option (Option String))
deriving DecidableEq

/-- Message text of an exception, as Python's `str(exc)` interpolated into
the wrapping message. -/
def excMessage : PyExc → String
  | PyExc.valueError m => m
  | PyExc.httpError u s _ => u ++ " " ++ toString s
  | PyExc.runtimeError m => m
  | PyExc.pyodbcError m => m
  | PyExc.keyError m => m

/-- Body of the `try` block of `_get_fred_api_key` (fred_key.py lines
30-41): connect, execute the `SELECT TOP 1 api` query, fetch one row, and
raise `RuntimeError` when there is no row or its first column is falsy
(`if not row or not row[0]`: `None` and the empty string are falsy). -/
def keyQueryRaw : DBResult → Except PyExc String
  | DBResult.connectFail m => Except.error (PyExc.pyodbcError m)
  | DBResult.queryFail m => Except.error (PyExc.pyodbcError m)
  | DBResult.fetched none =>
      Except.error (PyExc.runtimeError "No API key found in Main.fred.LKP_API_KEY.api")
  | DBResult.fetched (some none) =>
      Except.error (PyExc.runtimeError "No API key found in Main.fred.LKP_API_KEY.api")
  | DBResult.fetched (some (some s)) =>
      if s = "" then
        Except.error (PyExc.runtimeError "No API key found in Main.fred.LKP_API_KEY.api")
      else Except.ok s

/-- `_get_fred_api_key()` (fred_key.py lines 22-47): the whole `try` body
runs under `except Exception as exc`, which wraps every raised exception --
including the inner `RuntimeError` -- into a fresh `RuntimeError` with a
consistent message. -/
def _get_fred_api_key (db : DBResult) : Except PyExc String :=
  match keyQueryRaw db with
  | Except.ok s => Except.ok s
  | Except.error exc =>
      Except.error (PyExc.runtimeError
        ("Could not retrieve the FRED API key from the database.\nOriginal exception: "
          ++ excMessage exc))

/-- Query dict `cpi_params` of the main script (lines 69-76). -/
def cpi_params : List (String × String) :=
  [("series_id", "CPIAUCSL"), ("observation_start", "2000-01-01"),
   ("observation_end", "2025-08-31"), ("frequency", "m"),
   ("units", "pc1"), ("file_type", "json")]

/-- Query dict `unemp_params` of the main script (lines 94-101). -/
def unemp_params : List (String × String) :=
  [("series_id", "UNRATE"), ("observation_start", "2000-01-01"),
   ("observation_end", "2025-08-31"), ("frequency", "m"),
   ("units", "lin"), ("file_type", "json")]

/-- Top level of fred_cpi_unemployment_linear_regression.py: importing
fred_key evaluates `_get_fred_api_key()` once before anything else, then
the script fetches and loads CPI, fetches and loads unemployment, merges,
and fits.  `net` is the live HTTP transport and `decode` stands for
`resp.json()["observations"]` (JSON decoding plus field access, yielding
the records as (date, value-string) pairs); a decode failure is the
corresponding KeyError/JSONDecodeError. -/
def runScript (db : DBResult) (net : String → List (String × String) → HTTPResponse)
    (decode : String → Option (List (Nat × String))) : Except PyExc FitResult :=
  match _get_fred_api_key db with
  | Except.error e => Except.error e
  | Except.ok key =>
    match (fredGet key "series/observations" cpi_params net).1 with
    | Except.error e => Except.error e
    | Except.ok resp₁ =>
      match decode resp₁.text with
      | none => Except.error (PyExc.keyError "observations")
      | some payload₁ =>
        match loadSeries payload₁ with
        | Except.error e => Except.error e
        | Except.ok cpi =>
          match (fredGet key "series/observations" unemp_params net).1 with
          | Except.error e => Except.error e
          | Except.ok resp₂ =>
            match decode resp₂.text with
            | none => Except.error (PyExc.keyError "observations")
            | some payload₂ =>
              match loadSeries payload₂ with
              | Except.error e => Except.error e
              | Except.ok unemp =>
                Except.ok (fit ((mergeTables cpi unemp).map fun r => r.2))

/-- Chronological order on series-table rows, comparing dates. -/
def dateOrder (p q : Nat × Option ℚ) : Prop := p.1 < q.1

instance : IsAntisymm (Nat × Option ℚ) dateOrder :=
  ⟨fun _ _ h h' => absurd (Nat.lt_trans h h') (Nat.lt_irrefl _)⟩

instance : DecidableRel dateOrder :=
  fun p q => inferInstanceAs (Decidable (p.1 < q.1))

/-- The spec's golden synthetic dataset: y = 2 + 3x for x in 0..4. -/
def goldenData : List (ℚ × ℚ) := [(0, 2), (1, 5), (2, 8), (3, 11), (4, 14)]

@[simp] lemma count_nil : count [] = 0 := rfl

@[simp] lemma count_cons (p : ℚ × ℚ) (t : List (ℚ × ℚ)) : count (p :: t) = count t + 1 := by
  simp [count]

@[simp] lemma sumX_nil : sumX [] = 0 := rfl

@[simp] lemma sumX_cons (p : ℚ × ℚ) (t : List (ℚ × ℚ)) : sumX (p :: t) = p.1 + sumX t := by
  simp [sumX]

@[simp] lemma sumY_nil : sumY [] = 0 := rfl

@[simp] lemma sumY_cons (p : ℚ × ℚ) (t : List (ℚ × ℚ)) : sumY (p :: t) = p.2 + sumY t := by
  simp [sumY]

@[simp] lemma sumXX_nil : sumXX [] = 0 := rfl

@[simp] lemma sumXX_cons (p : ℚ × ℚ) (t : List (ℚ × ℚ)) :
    sumXX (p :: t) = p.1 * p.1 + sumXX t := by
  simp [sumXX]

@[simp] lemma sumXY_nil : sumXY [] = 0 := rfl

@[simp] lemma sumXY_cons (p : ℚ × ℚ) (t : List (ℚ × ℚ)) :
    sumXY (p :: t) = p.1 * p.2 + sumXY t := by
  simp [sumXY]

@[simp] lemma sumYY_nil : sumYY [] = 0 := rfl

@[simp] lemma sumYY_cons (p : ℚ × ℚ) (t : List (ℚ × ℚ)) :
    sumYY (p :: t) = p.2 * p.2 + sumYY t := by
  simp [sumYY]

@[simp] lemma RSS_nil (a b : ℚ) : RSS [] a b = 0 := rfl

@[simp] lemma RSS_cons (p : ℚ × ℚ) (t : List (ℚ × ℚ)) (a b : ℚ) :
    RSS (p :: t) a b = (p.2 - (a + b * p.1)) ^ 2 + RSS t a b := by
  simp [RSS]

/-- The residual sum of squares expanded in the six moment sums. -/
lemma rss_moments (a b : ℚ) (data : List (ℚ × ℚ)) :
    RSS data a b = sumYY data - 2 * a * sumY data - 2 * b * sumXY data
      + 2 * a * b * sumX data + a ^ 2 * count data + b ^ 2 * sumXX data := by
  induction data with
  | nil => simp
  | cons p t ih => simp [ih]; ring

/-- The centred sum of squares of the predictor, in moment sums. -/
lemma centeredSq_moments (c : ℚ) (data : List (ℚ × ℚ)) :
    (data.map fun r => (r.1 - c) ^ 2).sum
      = sumXX data - 2 * c * sumX data + c ^ 2 * count data := by
  induction data with
  | nil => simp
  | cons p t ih => simp [ih]; ring

lemma sum_sq_nonneg (c : ℚ) (data : List (ℚ × ℚ)) :
    0 ≤ (data.map fun r => (r.1 - c) ^ 2).sum := by
  induction data with
  | nil => simp
  | cons p t ih =>
    simp only [List.map_cons, List.sum_cons]
    exact add_nonneg (sq_nonneg _) ih

lemma sum_sq_zero (c : ℚ) (data : List (ℚ × ℚ))
    (h : (data.map fun r => (r.1 - c) ^ 2).sum = 0) :
    ∀ r ∈ data, r.1 = c := by
  induction data with
  | nil => intro r hr; exact absurd hr (List.not_mem_nil r)
  | cons p t ih =>
    simp only [List.map_cons, List.sum_cons] at h
    have h1 : (0 : ℚ) ≤ (p.1 - c) ^ 2 := sq_nonneg _
    have h2 := sum_sq_nonneg c t
    have hhead : (p.1 - c) ^ 2 = 0 := by linarith
    have htail : (t.map fun r => (r.1 - c) ^ 2).sum = 0 := by linarith
    intro r hr
    rcases List.mem_cons.mp hr with hr | hr
    · subst hr
      have := pow_eq_zero_iff (n := 2) (by norm_num) |>.mp hhead
      linarith [sub_eq_zero.mp this]
    · exact ih htail r hr

/-- Minimising a positive-definite least-squares quadratic: any point
satisfying the normal equations is a global minimum. -/
lemma ols_quadratic_min (n Sx Sy Sxx Sxy Syy A B a b : ℚ)
    (hn : 0 < n) (hD : 0 < n * Sxx - Sx ^ 2)
    (h1 : n * A + Sx * B = Sy) (h2 : Sx * A + Sxx * B = Sxy) :
    Syy - 2 * A * Sy - 2 * B * Sxy + 2 * A * B * Sx + A ^ 2 * n + B ^ 2 * Sxx
      ≤ Syy - 2 * a * Sy - 2 * b * Sxy + 2 * a * b * Sx + a ^ 2 * n + b ^ 2 * Sxx := by
  subst h1
  subst h2
  nlinarith [sq_nonneg (n * (a - A) + Sx * (b - B)), mul_nonneg hD.le (sq_nonneg (b - B)),
    hn, mul_pos hn hn]

section LookupLemmas

variable {α β : Type} [BEq α] [LawfulBEq α] [DecidableEq α]

@[simp] lemma lookup_cons (a : α × β) (t : List (α × β)) (k : α) :
    (a :: t).lookup k = if k = a.1 then some a.2 else t.lookup k := by
  simp only [List.lookup]
  cases hbeq : k == a.1 with
  | true =>
    have hk : k = a.1 := eq_of_beq hbeq
    simp [hk]
  | false =>
    have hk : ¬ k = a.1 := by
      intro hh
      subst hh
      simp at hbeq
    simp [hk]

lemma lookup_append_of_none (l₁ l₂ : List (α × β)) (k : α) (h : l₁.lookup k = none) :
    (l₁ ++ l₂).lookup k = l₂.lookup k := by
  induction l₁ with
  | nil => simp
  | cons a t ih =>
    rw [lookup_cons] at h
    by_cases hk : k = a.1
    · rw [if_pos hk] at h
      exact absurd h (by simp)
    · rw [if_neg hk] at h
      rw [List.cons_append, lookup_cons, if_neg hk]
      exact ih h

lemma lookup_append_of_some (l₁ l₂ : List (α × β)) (k : α) (v : β)
    (h : l₁.lookup k = some v) : (l₁ ++ l₂).lookup k = some v := by
  induction l₁ with
  | nil => simp at h
  | cons a t ih =>
    rw [lookup_cons] at h
    by_cases hk : k = a.1
    · rw [if_pos hk] at h
      rw [List.cons_append, lookup_cons, if_pos hk]
      exact h
    · rw [if_neg hk] at h
      rw [List.cons_append, lookup_cons, if_neg hk]
      exact ih h

lemma lookup_eq_some_iff_mem {l : List (α × β)} (h : (l.map Prod.fst).Nodup)
    (k : α) (v : β) : l.lookup k = some v ↔ (k, v) ∈ l := by
  induction l with
  | nil => simp
  | cons a t ih =>
    simp only [List.map_cons, List.nodup_cons] at h
    by_cases hk : k = a.1
    · subst hk
      rw [lookup_cons, if_pos rfl]
      constructor
      · intro hv
        have hv2 : v = a.2 := (Option.some_inj.mp hv).symm
        exact List.mem_cons.mpr (Or.inl (by rw [hv2, Prod.mk.eta]))
      · intro hmem
        rcases List.mem_cons.mp hmem with he | ht
        · rw [show a.2 = v from by rw [← he]]
        · exact absurd (List.mem_map_of_mem Prod.fst ht) h.1
    · have hne : (k, v) ≠ a := fun he => hk (congrArg Prod.fst he)
      rw [lookup_cons, if_neg hk]
      simp only [List.mem_cons, hne, false_or]
      exact ih h.2

end LookupLemmas

/-- C1: for every merged table with at least 2 distinct predictor values,
`fit` returns the closed-form ordinary-least-squares solution: its
coefficients minimise the residual sum of squares globally, the slope is
Cov(x,y)/Var(x), the intercept is mean(y) - slope*mean(x), and on the exact
dataset y = 2 + 3x for x in 0..4 it returns intercept 2 and slope 3
(exactly, over ℚ). -/
theorem fit_returns_OLS_solution (data : List (ℚ × ℚ))
    (hx : ∃ p ∈ data, ∃ q ∈ data, p.1 ≠ q.1) :
    (∀ a b : ℚ, RSS data (fit data).intercept (fit data).slope ≤ RSS data a b)
    ∧ (fit data).slope = covXY data / varX data
    ∧ (fit data).intercept = meanY data - (fit data).slope * meanX data
    ∧ fit goldenData = ⟨2, 3⟩ := by
  obtain ⟨p, hp, q, hq, hpq⟩ := hx
  have hlen : 0 < data.length := List.length_pos.mpr (by rintro rfl; exact List.not_mem_nil p hp)
  have hn : 0 < count data := by unfold count; exact_mod_cast hlen
  have hn' : count data ≠ 0 := ne_of_gt hn
  have hS := centeredSq_moments (meanX data) data
  have hSnn := sum_sq_nonneg (meanX data) data
  have hSne : (data.map fun r => (r.1 - meanX data) ^ 2).sum ≠ 0 := by
    intro h0
    exact hpq ((sum_sq_zero (meanX data) data h0 p hp).trans
      (sum_sq_zero (meanX data) data h0 q hq).symm)
  have hSpos : 0 < (data.map fun r => (r.1 - meanX data) ^ 2).sum :=
    lt_of_le_of_ne hSnn (Ne.symm hSne)
  have hcn : meanX data * count data = sumX data := by
    unfold meanX; field_simp
  have hD : 0 < count data * sumXX data - sumX data ^ 2 := by
    have h2 : count data * ((data.map fun r => (r.1 - meanX data) ^ 2).sum)
        = count data * sumXX data - sumX data ^ 2 := by
      rw [hS]
      linear_combination (meanX data * count data - sumX data) * hcn
    rw [← h2]
    exact mul_pos hn hSpos
  have hvar : varX data = (count data * sumXX data - sumX data ^ 2) / count data ^ 2 := by
    unfold varX meanX; field_simp; ring
  have hvpos : 0 < varX data := by
    rw [hvar]; exact div_pos hD (by positivity)
  have hv' : varX data ≠ 0 := ne_of_gt hvpos
  have hcov : covXY data
      = (count data * sumXY data - sumX data * sumY data) / count data ^ 2 := by
    unfold covXY meanX meanY; field_simp; ring
  have hslope : (fit data).slope = covXY data / varX data := rfl
  have hint : (fit data).intercept = meanY data - (fit data).slope * meanX data := rfl
  have hBmul : (fit data).slope * (count data * sumXX data - sumX data ^ 2)
      = count data * sumXY data - sumX data * sumY data := by
    rw [hslope, hcov, hvar]
    field_simp
  have hNE1 : count data * (fit data).intercept + sumX data * (fit data).slope
      = sumY data := by
    rw [hint]
    unfold meanY meanX
    field_simp
    ring
  have hNE2 : sumX data * (fit data).intercept + sumXX data * (fit data).slope
      = sumXY data := by
    rw [hint]
    unfold meanY meanX
    field_simp
    linear_combination hBmul
  refine ⟨?_, hslope, hint, ?_⟩
  · intro a b
    rw [rss_moments, rss_moments]
    exact ols_quadratic_min (count data) (sumX data) (sumY data) (sumXX data) (sumXY data)
      (sumYY data) (fit data).intercept (fit data).slope a b hn hD hNE1 hNE2
  · simp [goldenData, fit, covXY, varX, meanX, meanY, sumX, sumY, sumXY, sumXX, count]
    norm_num

/-- Witness for C1 at the golden dataset, whose predictor takes five
distinct values. -/
theorem fit_returns_OLS_solution_witness :
    (∃ p ∈ goldenData, ∃ q ∈ goldenData, p.1 ≠ q.1)
    ∧ ((∀ a b : ℚ,
        RSS goldenData (fit goldenData).intercept (fit goldenData).slope
          ≤ RSS goldenData a b)
      ∧ (fit goldenData).slope = covXY goldenData / varX goldenData
      ∧ (fit goldenData).intercept
          = meanY goldenData - (fit goldenData).slope * meanX goldenData
      ∧ fit goldenData = ⟨2, 3⟩) :=
  ⟨by decide, fit_returns_OLS_solution goldenData (by decide)⟩

/-- C2: for valid (duplicate-free) series tables, the date set of the
merged table is exactly the dates carrying a valid (non-NaN) value in both
input tables. -/
theorem mergeTables_domain (a b : SeriesTable)
    (ha : (a.map Prod.fst).Nodup) (hb : (b.map Prod.fst).Nodup) :
    ∀ d : Nat, d ∈ (mergeTables a b).map Prod.fst ↔
      ((∃ x : ℚ, (d, some x) ∈ a) ∧ (∃ y : ℚ, (d, some y) ∈ b)) := by
  intro d
  constructor
  · intro hd
    rcases List.mem_map.mp hd with ⟨r, hr, hfst⟩
    rcases List.mem_filterMap.mp hr with ⟨q, hq, hdrop⟩
    rcases List.mem_filterMap.mp hq with ⟨p, hp, hjoin⟩
    rcases Option.map_eq_some'.mp hjoin with ⟨w, hlook, hqeq⟩
    rcases Option.bind_eq_some.mp hdrop with ⟨x, hx, hmap⟩
    rcases Option.map_eq_some'.mp hmap with ⟨y, hy, hreq⟩
    subst hqeq
    subst hreq
    simp only at hx hy hfst ⊢
    subst hfst
    constructor
    · refine ⟨x, ?_⟩
      rw [← hx, Prod.mk.eta]
      exact hp
    · exact ⟨y, (lookup_eq_some_iff_mem hb p.1 (some y)).mp (by rw [hlook, hy])⟩
  · rintro ⟨⟨x, hx⟩, ⟨y, hy⟩⟩
    have hlook : b.lookup d = some (some y) := (lookup_eq_some_iff_mem hb d (some y)).mpr hy
    apply List.mem_map.mpr
    refine ⟨(d, (x, y)), ?_, rfl⟩
    apply List.mem_filterMap.mpr
    refine ⟨(d, (some x, some y)), ?_, rfl⟩
    apply List.mem_filterMap.mpr
    exact ⟨(d, some x), hx, by rw [hlook]; rfl⟩

/-- Witness for C2 on two small concrete tables with one shared valid
date. -/
theorem mergeTables_domain_witness :
    ((([(1, some 3), (2, none)] : SeriesTable).map Prod.fst).Nodup)
    ∧ ((([(1, some 5), (3, some 7)] : SeriesTable).map Prod.fst).Nodup)
    ∧ (1 ∈ (mergeTables [(1, some 3), (2, none)] [(1, some 5), (3, some 7)]).map Prod.fst ↔
        ((∃ x : ℚ, ((1 : Nat), some x) ∈ ([(1, some 3), (2, none)] : SeriesTable))
          ∧ (∃ y : ℚ, ((1 : Nat), some y) ∈ ([(1, some 5), (3, some 7)] : SeriesTable)))) :=
  ⟨by decide, by decide,
    mergeTables_domain [(1, some 3), (2, none)] [(1, some 5), (3, some 7)]
      (by decide) (by decide) 1⟩

/-- C3: on a merged table with a single distinct predictor value the code
does NOT fail: `LinearRegression.fit` (the minimum-norm least-squares
solution, reproduced exactly by `fit` since `ℚ` sets `0 / 0 = 0`) returns
slope 0 and intercept mean(y), a plain fit result.  No
`InsufficientDataError` guard exists anywhere in the source, as the spec
itself concedes; this theorem documents the divergence by evaluating the
code at the failing input, x constant = 1, y in 5, 7. -/
theorem fit_constant_predictor_returns_result :
    fit [(1, 5), (1, 7)] = ⟨6, 0⟩ ∧ varX [(1, 5), (1, 7)] = 0 := by
  constructor
  · simp [fit, covXY, varX, meanX, meanY, sumX, sumY, sumXY, sumXX, count]
    norm_num
  · norm_num [varX, meanX, sumX, sumXX, count]

/-- Python slicing `s[:n]` yields at most n characters. -/
lemma strTruncate_length (s : String) (n : Nat) : (strTruncate s n).length ≤ n := by
  show (s.data.take n).length ≤ n
  rw [List.length_take]
  exact min_le_left _ _

/-- C4 (amended): `raise_for_status` raises exactly on statuses 400-599, so
`fred_get` fails with the classified error (endpoint, status, body excerpt
of at most 200 characters) precisely there, returns the response for every
other status -- including the non-2xx 3xx range -- and consults the
transport exactly once, with no retry. -/
theorem fredGet_status_handling (fredKey endpoint : String)
    (params : List (String × String))
    (net : String → List (String × String) → HTTPResponse) (resp : HTTPResponse)
    (hresp : net (BASE_URL ++ endpoint) (fredGetParams fredKey params) = resp) :
    (400 ≤ resp.status ∧ resp.status < 600 →
      (fredGet fredKey endpoint params net).1
        = Except.error (PyExc.httpError (BASE_URL ++ endpoint) resp.status
            (strTruncate resp.text 200))
      ∧ (strTruncate resp.text 200).length ≤ 200)
    ∧ (resp.status < 400 ∨ 600 ≤ resp.status →
      (fredGet fredKey endpoint params net).1 = Except.ok resp)
    ∧ (∀ net' : String → List (String × String) → HTTPResponse,
        net' (BASE_URL ++ endpoint) (fredGetParams fredKey params)
          = net (BASE_URL ++ endpoint) (fredGetParams fredKey params) →
        fredGet fredKey endpoint params net' = fredGet fredKey endpoint params net) := by
  refine ⟨?_, ?_, ?_⟩
  · intro h
    refine ⟨?_, strTruncate_length _ _⟩
    simp [fredGet, raiseForStatus, hresp, h]
  · intro h
    have hnot : ¬ (400 ≤ resp.status ∧ resp.status < 600) := by
      rcases h with h | h
      · exact fun hc => absurd h (not_lt.mpr hc.1)
      · exact fun hc => absurd hc.2 (not_lt.mpr h)
    simp [fredGet, raiseForStatus, hresp, hnot]
  · intro net' h
    simp [fredGet, h, hresp]

/-- Counterexample to C4 as stated: a 304 response is non-2xx, yet
`fred_get` returns it instead of raising, because `raise_for_status` only
raises for 4xx/5xx. -/
theorem fredGet_non2xx_cex :
    ((304 : Nat) < 200 ∨ 299 < (304 : Nat))
    ∧ (fredGet "key" "series/observations" []
        (fun _ _ => ⟨304, "Not Modified"⟩)).1 = Except.ok ⟨304, "Not Modified"⟩ :=
  ⟨Or.inr (by decide), by rfl⟩

/-- Witness for the amended C4 at a concrete 404 response. -/
theorem fredGet_status_handling_witness :
    ((400 ≤ (404 : Nat) ∧ (404 : Nat) < 600 →
      (fredGet "key" "series/observations" [] (fun _ _ => ⟨404, "Not Found"⟩)).1
        = Except.error (PyExc.httpError (BASE_URL ++ "series/observations") 404
            (strTruncate "Not Found" 200))
      ∧ (strTruncate "Not Found" 200).length ≤ 200)
    ∧ ((404 : Nat) < 400 ∨ 600 ≤ (404 : Nat) →
      (fredGet "key" "series/observations" [] (fun _ _ => ⟨404, "Not Found"⟩)).1
        = Except.ok ⟨404, "Not Found"⟩)
    ∧ (∀ net' : String → List (String × String) → HTTPResponse,
        net' (BASE_URL ++ "series/observations") (fredGetParams "key" [])
          = (fun _ _ => (⟨404, "Not Found"⟩ : HTTPResponse))
              (BASE_URL ++ "series/observations") (fredGetParams "key" []) →
        fredGet "key" "series/observations" [] net'
          = fredGet "key" "series/observations" [] (fun _ _ => ⟨404, "Not Found"⟩))) :=
  fredGet_status_handling "key" "series/observations" []
    (fun _ _ => ⟨404, "Not Found"⟩) ⟨404, "Not Found"⟩ rfl

/-- The `astype(float)` cast only ever raises `ValueError`. -/
lemma floatOfValue_error_shape (s : String) (e : PyExc)
    (h : floatOfValue s = Except.error e) : ∃ m, e = PyExc.valueError m := by
  unfold floatOfValue at h
  cases hp : pyFloatOfString s with
  | none =>
    rw [hp] at h
    exact ⟨_, (Except.error.injEq _ _).mp h |>.symm⟩
  | some v =>
    cases v <;> rw [hp] at h <;> cases h

/-- C5 (amended): a payload containing a record whose value string does not
parse as a float makes `load_series` raise `ValueError` from the
`astype(float)` cast -- it crashes instead of excluding the record. -/
theorem loadSeries_unparseable_raises (payload : List (Nat × String))
    (d : Nat) (s : String) (hmem : (d, s) ∈ payload)
    (hbad : pyFloatOfString s = none) :
    ∃ msg, loadSeries payload = Except.error (PyExc.valueError msg) := by
  induction payload with
  | nil => exact absurd hmem (List.not_mem_nil _)
  | cons r rs ih =>
    rcases List.mem_cons.mp hmem with he | ht
    · have hr2 : r.2 = s := by rw [← he]
      refine ⟨"could not convert string to float: " ++ s, ?_⟩
      simp [loadSeries, floatOfValue, hr2, hbad]
    · cases hf : floatOfValue r.2 with
      | error e =>
        obtain ⟨m, hm⟩ := floatOfValue_error_shape r.2 e hf
        refine ⟨m, ?_⟩
        simp [loadSeries, hf, hm]
      | ok v =>
        obtain ⟨msg, hmsg⟩ := ih ht
        refine ⟨msg, ?_⟩
        simp [loadSeries, hf, hmsg]

/-- Counterexample to C5 as stated: on a payload whose second record holds
the FRED missing-value sentinel, the loader raises rather than returning
any table with that date excluded. -/
theorem loadSeries_sentinel_cex :
    loadSeries [(1, "2"), (2, ".")]
      = Except.error (PyExc.valueError "could not convert string to float: .")
    ∧ ∀ t : SeriesTable, loadSeries [(1, "2"), (2, ".")] ≠ Except.ok t := by
  refine ⟨by rfl, ?_⟩
  intro t h
  rw [show loadSeries [(1, "2"), (2, ".")]
    = Except.error (PyExc.valueError "could not convert string to float: .") from rfl] at h
  cases h

/-- Witness for the amended C5 at the one-record sentinel payload. -/
theorem loadSeries_unparseable_raises_witness :
    ((1, ".") ∈ ([(1, ".")] : List (Nat × String)))
    ∧ pyFloatOfString "." = none
    ∧ ∃ msg, loadSeries [(1, ".")] = Except.error (PyExc.valueError msg) :=
  ⟨by decide, by decide, loadSeries_unparseable_raises [(1, ".")] 1 "." (by decide) (by decide)⟩

/-- C6: `merge` is deterministic -- its output depends only on the tables'
contents, not on any internal enumeration order: two representations of the
same two (date-sorted, duplicate-free) tables produce identical merged
tables. -/
theorem mergeTables_deterministic (a a' b b' : SeriesTable)
    (hpa : a.Perm a') (hpb : b.Perm b')
    (hsa : List.Sorted dateOrder a) (hsa' : List.Sorted dateOrder a')
    (hsb : List.Sorted dateOrder b) (hsb' : List.Sorted dateOrder b') :
    mergeTables a b = mergeTables a' b' := by
  rw [List.eq_of_perm_of_sorted hpa hsa hsa', List.eq_of_perm_of_sorted hpb hsb hsb']

/-- Witness for C6 on concrete sorted tables. -/
theorem mergeTables_deterministic_witness :
    (([(1, some 2), (3, none)] : SeriesTable).Perm [(1, some 2), (3, none)])
    ∧ List.Sorted dateOrder ([(1, some 2), (3, none)] : SeriesTable)
    ∧ (([(2, some 5)] : SeriesTable).Perm [(2, some 5)])
    ∧ List.Sorted dateOrder ([(2, some 5)] : SeriesTable)
    ∧ mergeTables [(1, some 2), (3, none)] [(2, some 5)]
        = mergeTables [(1, some 2), (3, none)] [(2, some 5)] :=
  ⟨List.Perm.refl _, by decide, List.Perm.refl _, by decide,
    mergeTables_deterministic _ _ _ _ (List.Perm.refl _) (List.Perm.refl _)
      (by decide) (by decide) (by decide) (by decide)⟩

/-- C7: the credential lookup fails with a (wrapped) `RuntimeError` when
there is no row or the value is empty, any key it does return is non-empty,
and a lookup failure makes the whole run fail with that very error whatever
the network transport would have answered -- the run aborts before any
network call. -/
theorem credential_lookup_contract :
    (∀ db : DBResult,
      (db = DBResult.fetched none ∨ db = DBResult.fetched (some none)
        ∨ db = DBResult.fetched (some (some ""))) →
      ∃ msg, _get_fred_api_key db = Except.error (PyExc.runtimeError msg))
    ∧ (∀ (db : DBResult) (k : String), _get_fred_api_key db = Except.ok k → k ≠ "")
    ∧ (∀ (db : DBResult) (e : PyExc), _get_fred_api_key db = Except.error e →
        ∀ (net : String → List (String × String) → HTTPResponse)
          (dec : String → Option (List (Nat × String))),
          runScript db net dec = Except.error e) := by
  refine ⟨?_, ?_, ?_⟩
  · rintro db (rfl | rfl | rfl) <;> exact ⟨_, rfl⟩
  · intro db k h
    cases db with
    | connectFail m => exact absurd h (by simp [_get_fred_api_key, keyQueryRaw])
    | queryFail m => exact absurd h (by simp [_get_fred_api_key, keyQueryRaw])
    | fetched row =>
      match row with
      | none => exact absurd h (by simp [_get_fred_api_key, keyQueryRaw])
      | some none => exact absurd h (by simp [_get_fred_api_key, keyQueryRaw])
      | some (some s) =>
        by_cases hs : s = ""
        · rw [hs] at h
          exact absurd h (by simp [_get_fred_api_key, keyQueryRaw])
        · simp [_get_fred_api_key, keyQueryRaw, hs] at h
          rw [← h]
          exact hs
  · intro db e h net dec
    simp [runScript, h]

/-- Witness for C7: the no-row outcome produces a RuntimeError. -/
theorem credential_lookup_contract_witness :
    ∃ msg, _get_fred_api_key (DBResult.fetched none)
      = Except.error (PyExc.runtimeError msg) :=
  credential_lookup_contract.1 (DBResult.fetched none) (Or.inl rfl)

/-- C8 (amended): `load_series` preserves the payload's record order, so
its dates are strictly increasing exactly when the payload's are; an
unordered payload yields an unordered table, since `set_index` never
sorts. -/
theorem loadSeries_preserves_payload_order (payload : List (Nat × String)) (t : SeriesTable)
    (h : loadSeries payload = Except.ok t) :
    t.map Prod.fst = payload.map Prod.fst
    ∧ ((payload.map Prod.fst).Pairwise (· < ·) → (t.map Prod.fst).Pairwise (· < ·)) := by
  have key : t.map Prod.fst = payload.map Prod.fst := by
    induction payload generalizing t with
    | nil =>
      simp only [loadSeries] at h
      cases h
      simp
    | cons r rs ih =>
      simp only [loadSeries] at h
      cases hf : floatOfValue r.2 with
      | error e => rw [hf] at h; cases h
      | ok v =>
        rw [hf] at h
        cases hr : loadSeries rs with
        | error e => rw [hr] at h; cases h
        | ok t' =>
          rw [hr] at h
          cases h
          simp [ih t' hr]
  exact ⟨key, fun hp => key ▸ hp⟩

/-- Counterexample to C8 as stated: an unordered two-record payload loads
into a table whose dates are not strictly increasing. -/
theorem loadSeries_unordered_cex :
    loadSeries [(2, "1"), (1, "2")] = Except.ok [(2, some 1), (1, some 2)]
    ∧ ¬ ((([((2 : Nat), some (1 : ℚ)), (1, some 2)]).map Prod.fst).Pairwise (· < ·)) :=
  ⟨by rfl, by decide⟩

/-- Witness for the amended C8 at an ordered two-record payload. -/
theorem loadSeries_preserves_payload_order_witness :
    (loadSeries [(1, "2"), (2, "3")] = Except.ok [(1, some 2), (2, some 3)])
    ∧ (([((1 : Nat), some (2 : ℚ)), (2, some 3)]).map Prod.fst
        = ([((1 : Nat), "2"), (2, "3")]).map Prod.fst
      ∧ ((([((1 : Nat), "2"), (2, "3")]).map Prod.fst).Pairwise (· < ·) →
          (([((1 : Nat), some (2 : ℚ)), (2, some 3)]).map Prod.fst).Pairwise (· < ·))) :=
  ⟨by rfl, loadSeries_preserves_payload_order [(1, "2"), (2, "3")] [(1, some 2), (2, some 3)]
    (by rfl)⟩

/-- C9: `fred_get` mutates the caller's `params` dict in place: when
"api_key" is absent it is appended bound to the module credential and every
other key's binding is untouched; when "api_key" is present the dict is
left entirely unchanged and its pre-existing value is the one the single
request is sent with (third conjunct: the request uses exactly the mutated
dict). -/
theorem fredGet_params_inplace (fredKey endpoint : String)
    (params : List (String × String))
    (net : String → List (String × String) → HTTPResponse) :
    (params.lookup "api_key" = none →
      (fredGet fredKey endpoint params net).2 = params ++ [("api_key", fredKey)]
      ∧ ((fredGet fredKey endpoint params net).2).lookup "api_key" = some fredKey
      ∧ ∀ k : String, k ≠ "api_key" →
          ((fredGet fredKey endpoint params net).2).lookup k = params.lookup k)
    ∧ (∀ v : String, params.lookup "api_key" = some v →
      (fredGet fredKey endpoint params net).2 = params
      ∧ ((fredGet fredKey endpoint params net).2).lookup "api_key" = some v)
    ∧ (fredGet fredKey endpoint params net).1
        = raiseForStatus (BASE_URL ++ endpoint)
            (net (BASE_URL ++ endpoint) ((fredGet fredKey endpoint params net).2)) := by
  have h2 : (fredGet fredKey endpoint params net).2 = fredGetParams fredKey params := rfl
  refine ⟨?_, ?_, rfl⟩
  · intro h
    have hg : fredGetParams fredKey params = params ++ [("api_key", fredKey)] := by
      simp [fredGetParams, h]
    refine ⟨h2.trans hg, ?_, ?_⟩
    · rw [h2, hg, lookup_append_of_none _ _ _ h]
      simp
    · intro k hk
      rw [h2, hg]
      cases hp : params.lookup k with
      | none =>
        rw [lookup_append_of_none _ _ _ hp]
        simp [lookup_cons, hk]
      | some v => rw [lookup_append_of_some _ _ _ _ hp]
  · intro v h
    have hg : fredGetParams fredKey params = params := by
      simp [fredGetParams, h]
    exact ⟨h2.trans hg, by rw [h2, hg]; exact h⟩

/-- Witness for C9: the script's own CPI params dict carries no "api_key",
so the call appends the credential and leaves every other key alone. -/
theorem fredGet_params_inplace_witness :
    (fredGet "key" "series/observations" cpi_params (fun _ _ => ⟨200, "ok"⟩)).2
      = cpi_params ++ [("api_key", "key")]
    ∧ ((fredGet "key" "series/observations" cpi_params (fun _ _ => ⟨200, "ok"⟩)).2).lookup
        "api_key" = some "key"
    ∧ ∀ k : String, k ≠ "api_key" →
        ((fredGet "key" "series/observations" cpi_params (fun _ _ => ⟨200, "ok"⟩)).2).lookup k
          = cpi_params.lookup k :=
  (fredGet_params_inplace "key" "series/observations" cpi_params (fun _ _ => ⟨200, "ok"⟩)).1
    (by decide)

/-- C10: `_get_fred_api_key` is total over failure: every database outcome
yields either a non-empty key or a `RuntimeError`; the wrapping except
block ensures no other exception type ever escapes. -/
theorem getKey_returns_key_or_RuntimeError (db : DBResult) :
    (∃ k, _get_fred_api_key db = Except.ok k ∧ k ≠ "")
    ∨ (∃ msg, _get_fred_api_key db = Except.error (PyExc.runtimeError msg)) := by
  cases db with
  | connectFail m => exact Or.inr ⟨_, rfl⟩
  | queryFail m => exact Or.inr ⟨_, rfl⟩
  | fetched row =>
    match row with
    | none => exact Or.inr ⟨_, rfl⟩
    | some none => exact Or.inr ⟨_, rfl⟩
    | some (some s) =>
      by_cases hs : s = ""
      · rw [hs]
        exact Or.inr ⟨_, rfl⟩
      · refine Or.inl ⟨s, ?_, hs⟩
        simp [_get_fred_api_key, keyQueryRaw, hs]

end Fred
